import Mathlib

/-!
Verification development for the DS1302 real-time-clock driver
(`clock_ds1302.py`): a bit-banged three-wire protocol driver that toggles a
clock pin, a bidirectional data pin and a chip-select/reset pin by hand.

The driver is embedded shallowly:

* Pin activity is recorded as a trace of events (`Ev`): chip-select levels,
  data-pin direction changes, data-pin writes, data-pin samples and clock
  levels, in the exact order the Python code performs them.
* Python exceptions (`ValueError` from `_int_to_bcd`, `ValueError` from
  `int('')` inside `_prepare_year_for_save`) are modelled with
  `Except String`; an `Except.error` result aborts the rest of the
  computation, exactly as a propagating exception does, so an error result
  carries no trace of the pin operations that would have followed.
* The chip itself is modelled as an environment `regs : Nat → Nat` giving the
  byte that the chip drives, least significant bit first, when a register is
  read.
-/

set_option maxRecDepth 100000

deriving instance DecidableEq for Except

namespace RpiPico

/-! ### Register address constants (verbatim from the source) -/

def RTC_SEC_WRITE : Nat := 0x80
def RTC_SEC_READ : Nat := 0x81
def RTC_MIN_WRITE : Nat := 0x82
def RTC_MIN_READ : Nat := 0x83
def RTC_HOUR_WRITE : Nat := 0x84
def RTC_HOUR_READ : Nat := 0x85
def RTC_DAY_OF_THE_MONTH_WRITE : Nat := 0x86
def RTC_DAY_OF_THE_MONTH_READ : Nat := 0x87
def RTC_MONTH_WRITE : Nat := 0x88
def RTC_MONTH_READ : Nat := 0x89
def RTC_DAY_OF_THE_WEEK_WRITE : Nat := 0x8A
def RTC_DAY_OF_THE_WEEK_READ : Nat := 0x8B
def RTC_YEAR_WRITE : Nat := 0x8C
def RTC_YEAR_READ : Nat := 0x8D
def RTC_REG_WRITE_PROTECTION : Nat := 0x8E
def RTC_REG_TRICKLE_CHARGER : Nat := 0x90
def RTC_REG_RAM_0 : Nat := 0xC0
def RTC_CLOCK_BURST_MODE : Nat := 0xBE

/-- One observable pin operation performed by the driver.

`csVal v`    — `cs_rst.value(v)`;
`dioDir b`   — `dio.init(Pin.OUT)` (`b = true`) or `dio.init(Pin.IN)` (`b = false`);
`dioWrite v` — `dio.value(v)` (driver drives the data line);
`dioRead v`  — `dio.value()` returned level `v` (driver samples the data line);
`clkVal v`   — `clk.value(v)`. -/
inductive Ev where
  | csVal : Nat → Ev
  | dioDir : Bool → Ev
  | dioWrite : Nat → Ev
  | dioRead : Nat → Ev
  | clkVal : Nat → Ev
deriving DecidableEq

/-- `DS1302._sample_data_on_the_raising_edge_of_the_clock`:
`clk.value(1); clk.value(0)` — one full clock pulse. -/
def sample_data_on_the_raising_edge_of_the_clock : List Ev :=
  [Ev.clkVal 1, Ev.clkVal 0]

/-- `DS1302._write_byte(byte)`: configure the data pin as output, then for
`i in range(8)` drive `(byte >> i) & 1` onto the data pin and pulse the
clock once. -/
def write_byte (byte : Nat) : List Ev :=
  Ev.dioDir true ::
    (List.range 8).flatMap
      (fun i => Ev.dioWrite ((byte >>> i) &&& 1) ::
        sample_data_on_the_raising_edge_of_the_clock)

/-- The value assembled by `DS1302._read_byte` when the sample at clock pulse
`i` reads level `pin i`: `data = data | (bit_value << i)` over `i in range(8)`,
starting from `data = 0`. -/
def read_byte_data (pin : Nat → Nat) : Nat :=
  (List.range 8).foldl (fun data i => data ||| (pin i <<< i)) 0

/-- The pin activity of `DS1302._read_byte`: configure the data pin as input,
then for `i in range(8)` sample the data pin and pulse the clock once. -/
def read_byte_trace (pin : Nat → Nat) : List Ev :=
  Ev.dioDir false ::
    (List.range 8).flatMap
      (fun i => Ev.dioRead (pin i) ::
        sample_data_on_the_raising_edge_of_the_clock)

/-- `DS1302._write_data_to_register(register, data)`: assert chip-select,
write the register/command byte, write the data byte, deassert chip-select. -/
def write_data_to_register (register data : Nat) : List Ev :=
  Ev.csVal 1 :: (write_byte register ++ (write_byte data ++ [Ev.csVal 0]))

/-- `DS1302._bcd_to_string(bcd_value)`: tens nibble times ten plus units
nibble, rendered in base 10 (`str` in Python, `toString` on `Nat` here). -/
def bcd_to_string (bcd_value : Nat) : String :=
  toString (((bcd_value >>> 4) &&& 0x0F) * 10 + (bcd_value &&& 0x0F))

/-- `DS1302._int_to_bcd(integer_value)`: raises
`ValueError("Input must be in the range [0, 99]")` outside `[0, 99]`, and
otherwise returns `(value // 10) << 4 | (value % 10)`. -/
def int_to_bcd (integer_value : Int) : Except String Nat :=
  if integer_value < 0 ∨ integer_value > 99 then
    Except.error "Input must be in the range [0, 99]"
  else
    Except.ok ((integer_value.toNat / 10) <<< 4 ||| (integer_value.toNat % 10))

/-- `DS1302._unlock_then_write(register, data)`: BCD-encode the value (a
`ValueError` from `_int_to_bcd` propagates before any pin is touched), then
perform three full register transactions: clear write-protect, write the
field register, re-arm write-protect. -/
def unlock_then_write (register : Nat) (data : Int) : Except String (List Ev) := do
  let dataInBcd ← int_to_bcd data
  pure (write_data_to_register RTC_REG_WRITE_PROTECTION 0 ++
        (write_data_to_register register dataInBcd ++
         write_data_to_register RTC_REG_WRITE_PROTECTION 0x80))

/-- `DS1302._read_from_regiter(register)` (typo kept from the source):
assert chip-select, write the command byte, read one byte back, deassert
chip-select, and return the BCD-decoded decimal string.  `pin` gives the
level the data line carries at each of the eight samples. -/
def read_from_regiter (register : Nat) (pin : Nat → Nat) : String × List Ev :=
  (bcd_to_string (read_byte_data pin),
   Ev.csVal 1 :: (write_byte register ++ (read_byte_trace pin ++ [Ev.csVal 0])))

/-- Chip model: when a register holding byte `b` is read, the chip drives the
bits of `b` on the data line least significant bit first, so the sample at
clock pulse `i` is `(b >>> i) &&& 1`. -/
def chipBits (b : Nat) : Nat → Nat :=
  fun i => (b >>> i) &&& 1

/-- Model of the Python builtin `int(s)` on the strings this driver can feed
it (slices of the decimal representation of an integer): `ValueError` on the
empty string or any non-digit character, otherwise the decimal value of the
digit run. -/
def pyInt (cs : List Char) : Except String Int :=
  if cs = [] ∨ ¬ cs.all Char.isDigit then
    Except.error "invalid literal for int() with base 10"
  else
    Except.ok (Int.ofNat (cs.foldl (fun a c => a * 10 + (c.toNat - 48)) 0))

/-- `DS1302._prepare_year_for_save(year)`: `int(str(year)[2:4])` — take the
characters at positions 2 and 3 of the decimal string of `year` and parse
them back as an integer. -/
def prepare_year_for_save (year : Int) : Except String Int :=
  let yearAsString := toString year
  pyInt ((yearAsString.data.drop 2).take 2)

/-! ### Public API -/

def writeSeconds (seconds : Int) : Except String (List Ev) :=
  unlock_then_write RTC_SEC_WRITE seconds

def readSeconds (regs : Nat → Nat) : String × List Ev :=
  read_from_regiter RTC_SEC_READ (chipBits (regs RTC_SEC_READ))

def writeMinutes (minutes : Int) : Except String (List Ev) :=
  unlock_then_write RTC_MIN_WRITE minutes

def readMinutes (regs : Nat → Nat) : String × List Ev :=
  read_from_regiter RTC_MIN_READ (chipBits (regs RTC_MIN_READ))

def writeHours (hours : Int) : Except String (List Ev) :=
  unlock_then_write RTC_HOUR_WRITE hours

def readHours (regs : Nat → Nat) : String × List Ev :=
  read_from_regiter RTC_HOUR_READ (chipBits (regs RTC_HOUR_READ))

def writeDayOfTheMonth (dayOfTheMonth : Int) : Except String (List Ev) :=
  unlock_then_write RTC_DAY_OF_THE_MONTH_WRITE dayOfTheMonth

def readDayOfTheMonth (regs : Nat → Nat) : String × List Ev :=
  read_from_regiter RTC_DAY_OF_THE_MONTH_READ (chipBits (regs RTC_DAY_OF_THE_MONTH_READ))

def writeMonth (month : Int) : Except String (List Ev) :=
  unlock_then_write RTC_MONTH_WRITE month

def readMonth (regs : Nat → Nat) : String × List Ev :=
  read_from_regiter RTC_MONTH_READ (chipBits (regs RTC_MONTH_READ))

def writeDayOfTheWeek (dayOfTheWeek : Int) : Except String (List Ev) :=
  unlock_then_write RTC_DAY_OF_THE_WEEK_WRITE dayOfTheWeek

def readDayOfTheWeek (regs : Nat → Nat) : String × List Ev :=
  read_from_regiter RTC_DAY_OF_THE_WEEK_READ (chipBits (regs RTC_DAY_OF_THE_WEEK_READ))

/-- `DS1302.writeYear(year)`: squeeze the year through
`_prepare_year_for_save` (which can raise) before the usual
unlock/write/re-lock sequence. -/
def writeYear (year : Int) : Except String (List Ev) := do
  let yearForSave ← prepare_year_for_save year
  unlock_then_write RTC_YEAR_WRITE yearForSave

/-- `DS1302._year_prefix`, the fixed century string `'20'`. -/
def yearPrefixStr : String := "20"

/-- `DS1302.readYear()`: the century prefix concatenated with the decoded
year register. -/
def readYear (regs : Nat → Nat) : String × List Ev :=
  let r := read_from_regiter RTC_YEAR_READ (chipBits (regs RTC_YEAR_READ))
  (yearPrefixStr ++ r.1, r.2)

/-- `DS1302.getDate()`: seven per-field reads, in the order day, month, year,
hour, minute, second, weekday, concatenated into the report string. -/
def getDate (regs : Nat → Nat) : String × List Ev :=
  let day := readDayOfTheMonth regs
  let month := readMonth regs
  let year := readYear regs
  let hour := readHours regs
  let min := readMinutes regs
  let sec := readSeconds regs
  let dayOfTheWeek := readDayOfTheWeek regs
  ("Date: " ++ day.1 ++ "." ++ month.1 ++ "." ++ year.1 ++ ", " ++ hour.1 ++
     ":" ++ min.1 ++ ":" ++ sec.1 ++ ", Day: " ++ dayOfTheWeek.1,
   day.2 ++ (month.2 ++ (year.2 ++ (hour.2 ++ (min.2 ++ (sec.2 ++ dayOfTheWeek.2))))))

/-- Two's-complement bitwise and on unbounded integers — the semantics of
Python's `&` on `int`.  Stated over the constructor representation
(`Int.ofNat m` for m ≥ 0, `Int.negSucc m` for −(m+1)); the theorem
`pyand_eq_land` below proves it equal to Mathlib's `Int.land`, which is the
standard definition of two's-complement and.  (On the negative side,
`m ^^^ (m &&& n)` clears from `m` the bits it shares with `n`, which is
exactly the bitwise difference `m and not n`.) -/
def pyand : Int → Int → Int
  | Int.ofNat m, Int.ofNat n => Int.ofNat (m &&& n)
  | Int.ofNat m, Int.negSucc n => Int.ofNat (m ^^^ (m &&& n))
  | Int.negSucc m, Int.ofNat n => Int.ofNat (n ^^^ (n &&& m))
  | Int.negSucc m, Int.negSucc n => Int.negSucc (m ||| n)

/-- `DS1302.setDate(...)`: seven guarded per-field writes.

Each guard is embedded exactly as Python parses the source expression.  In
Python, bitwise `&` binds tighter than comparisons and comparisons chain, so
`dayOfTheMonth & dayOfTheMonth > 0 & dayOfTheMonth < 32` parses as
`(dayOfTheMonth & dayOfTheMonth) > (0 & dayOfTheMonth)` and
`(0 & dayOfTheMonth) < 32`, and likewise for the other six guards.  The
bitwise `&` on Python ints is two's-complement bitwise and: `pyand` here,
provably equal to Mathlib's `Int.land` (theorem `pyand_eq_land`).
A `ValueError` raised by a field write propagates out of `setDate`,
abandoning the remaining fields (`Except.error` short-circuits the rest). -/
def setDate (dayOfTheMonth month year hour minute second dayOfWeek : Int) :
    Except String (List Ev) := do
  let t1 ←
    if pyand dayOfTheMonth dayOfTheMonth > pyand 0 dayOfTheMonth ∧
        pyand 0 dayOfTheMonth < 32 then
      writeDayOfTheMonth dayOfTheMonth
    else pure []
  let t2 ←
    if pyand month month > pyand 0 month ∧ pyand 0 month < 13 then
      writeMonth month
    else pure []
  let t3 ←
    if pyand year year > 0 then
      writeYear year
    else pure []
  let t4 ←
    if pyand hour hour > pyand (-1) hour ∧ pyand (-1) hour < 23 then
      writeHours hour
    else pure []
  let t5 ←
    if pyand minute minute > pyand (-1) minute ∧ pyand (-1) minute < 60 then
      writeMinutes minute
    else pure []
  let t6 ←
    if pyand second second > pyand (-1) second ∧ pyand (-1) second < 60 then
      writeSeconds second
    else pure []
  let t7 ←
    if pyand dayOfWeek dayOfWeek > pyand 0 dayOfWeek ∧ pyand 0 dayOfWeek < 8 then
      writeDayOfTheWeek dayOfWeek
    else pure []
  pure (t1 ++ (t2 ++ (t3 ++ (t4 ++ (t5 ++ (t6 ++ t7))))))

/-! ### Observers on traces

These functions are not part of the driver; they are verification-side
observers that recover the register-transaction structure from a raw pin
trace.  A parser succeeds only when the trace has the exact shape of a
sequence of complete chip-select-bracketed transactions laid back to back:
chip-select asserted, a command byte clocked out bit by bit (one full clock
pulse per bit), a data byte clocked out (write) or sampled (read), and
chip-select deasserted — so a successful parse certifies both the bracketing
and the absence of any overlap between transactions. -/

/-- Consume `n` driven bits (data-pin write followed by one full clock
pulse each) and reassemble the byte least significant bit first. -/
def readBits : Nat → List Ev → Option (Nat × List Ev)
  | 0, evs => some (0, evs)
  | n+1, evs =>
    match evs with
    | Ev.dioWrite v :: Ev.clkVal c1 :: Ev.clkVal c2 :: rest =>
      if c1 = 1 ∧ c2 = 0 then
        match readBits n rest with
        | some (acc, rest2) => some (v + 2 * acc, rest2)
        | none => none
      else none
    | _ => none

/-- Consume one byte driven by the host: data pin switched to output, then
eight clocked bits. -/
def readByteW : List Ev → Option (Nat × List Ev)
  | Ev.dioDir true :: rest => readBits 8 rest
  | _ => none

/-- Consume `n` sampled bits (data-pin read followed by one full clock pulse
each) and reassemble the byte least significant bit first. -/
def readBitsR : Nat → List Ev → Option (Nat × List Ev)
  | 0, evs => some (0, evs)
  | n+1, evs =>
    match evs with
    | Ev.dioRead v :: Ev.clkVal c1 :: Ev.clkVal c2 :: rest =>
      if c1 = 1 ∧ c2 = 0 then
        match readBitsR n rest with
        | some (acc, rest2) => some (v + 2 * acc, rest2)
        | none => none
      else none
    | _ => none

/-- Consume one byte sampled by the host: data pin switched to input, then
eight clocked samples. -/
def readByteR : List Ev → Option (Nat × List Ev)
  | Ev.dioDir false :: rest => readBitsR 8 rest
  | _ => none

/-- Consume one complete write transaction: chip-select up, command byte,
data byte, chip-select down.  Returns the (command, data) pair. -/
def readTx : List Ev → Option ((Nat × Nat) × List Ev)
  | Ev.csVal c :: rest =>
    if c = 1 then
      match readByteW rest with
      | some (reg, r1) =>
        match readByteW r1 with
        | some (dat, r2) =>
          match r2 with
          | Ev.csVal c2 :: r3 => if c2 = 0 then some ((reg, dat), r3) else none
          | _ => none
        | none => none
      | none => none
    else none
  | _ => none

/-- Consume one complete read transaction: chip-select up, command byte
driven out, data byte sampled in, chip-select down. -/
def readRdTx : List Ev → Option ((Nat × Nat) × List Ev)
  | Ev.csVal c :: rest =>
    if c = 1 then
      match readByteW rest with
      | some (reg, r1) =>
        match readByteR r1 with
        | some (dat, r2) =>
          match r2 with
          | Ev.csVal c2 :: r3 => if c2 = 0 then some ((reg, dat), r3) else none
          | _ => none
        | none => none
      | none => none
    else none
  | _ => none

/-- Parse an entire trace as a back-to-back sequence of write transactions
(`fuel` bounds the recursion; any fuel at least the number of transactions
gives the same answer). -/
def parseTxs : Nat → List Ev → Option (List (Nat × Nat))
  | _, [] => some []
  | 0, _ :: _ => none
  | n+1, e :: evs =>
    match readTx (e :: evs) with
    | some (rd, rest) =>
      match parseTxs n rest with
      | some txs => some (rd :: txs)
      | none => none
    | none => none

/-- Parse an entire trace as a back-to-back sequence of read transactions. -/
def parseRdTxs : Nat → List Ev → Option (List (Nat × Nat))
  | _, [] => some []
  | 0, _ :: _ => none
  | n+1, e :: evs =>
    match readRdTx (e :: evs) with
    | some (rd, rest) =>
      match parseRdTxs n rest with
      | some txs => some (rd :: txs)
      | none => none
    | none => none

/-- Parse a whole trace as write transactions (fuel = trace length, always
sufficient since each transaction consumes at least one event). -/
def parseAll (evs : List Ev) : Option (List (Nat × Nat)) :=
  parseTxs evs.length evs

/-- Parse a whole trace as read transactions. -/
def parseAllRd (evs : List Ev) : Option (List (Nat × Nat)) :=
  parseRdTxs evs.length evs

/-- The successive values driven onto the data pin, in order. -/
def dataWrites (evs : List Ev) : List Nat :=
  evs.filterMap (fun e =>
    match e with
    | Ev.dioWrite v => some v
    | _ => none)

/-- The pin trace of a back-to-back sequence of write transactions. -/
def txsTrace : List (Nat × Nat) → List Ev
  | [] => []
  | p :: ps => write_data_to_register p.1 p.2 ++ txsTrace ps

/-- The pin trace of a back-to-back sequence of register reads, under the
chip model (`p.1` the command byte, `p.2` the byte the chip answers). -/
def rdTxsTrace : List (Nat × Nat) → List Ev
  | [] => []
  | p :: ps => (read_from_regiter p.1 (chipBits p.2)).2 ++ rdTxsTrace ps

/-! ### Helper lemmas -/

/-- `pyand` is Mathlib's `Int.land`, the standard two's-complement bitwise
and — so the guards of `setDate` use the true semantics of Python's `&`. -/
theorem pyand_eq_land : ∀ a b : Int, pyand a b = Int.land a b := by
  have hldiff : ∀ m n : Nat, m ^^^ (m &&& n) = Nat.ldiff m n := by
    intro m n
    apply Nat.eq_of_testBit_eq
    intro k
    simp only [Nat.testBit_xor, Nat.testBit_land, Nat.testBit_ldiff]
    cases m.testBit k <;> cases n.testBit k <;> rfl
  intro a b
  cases a with
  | ofNat m =>
    cases b with
    | ofNat n => rfl
    | negSucc n =>
      show Int.ofNat (m ^^^ (m &&& n)) = Int.ofNat (Nat.ldiff m n)
      rw [hldiff]
  | negSucc m =>
    cases b with
    | ofNat n =>
      show Int.ofNat (n ^^^ (n &&& m)) = Int.ofNat (Nat.ldiff n m)
      rw [hldiff]
    | negSucc n => rfl

/-- Reassembling the eight bits of a byte below 256, least significant
first, recovers the byte. -/
lemma bits_sum_eq_aux : ∀ b : Fin 256,
    ((b.val >>> 0) &&& 1) + 2 * (((b.val >>> 1) &&& 1) + 2 * (((b.val >>> 2) &&& 1) +
      2 * (((b.val >>> 3) &&& 1) + 2 * (((b.val >>> 4) &&& 1) + 2 * (((b.val >>> 5) &&& 1) +
      2 * (((b.val >>> 6) &&& 1) + 2 * (((b.val >>> 7) &&& 1) + 2 * 0))))))) = b.val := by
  decide

lemma bits_sum_eq (b : Nat) (hb : b < 256) :
    ((b >>> 0) &&& 1) + 2 * (((b >>> 1) &&& 1) + 2 * (((b >>> 2) &&& 1) +
      2 * (((b >>> 3) &&& 1) + 2 * (((b >>> 4) &&& 1) + 2 * (((b >>> 5) &&& 1) +
      2 * (((b >>> 6) &&& 1) + 2 * (((b >>> 7) &&& 1) + 2 * 0))))))) = b :=
  bits_sum_eq_aux ⟨b, hb⟩

/-- The byte parser inverts `write_byte` on bytes below 256. -/
lemma readByteW_append (b : Nat) (hb : b < 256) (rest : List Ev) :
    readByteW (write_byte b ++ rest) = some (b, rest) := by
  have hred : readByteW (write_byte b ++ rest) =
      some (((b >>> 0) &&& 1) + 2 * (((b >>> 1) &&& 1) + 2 * (((b >>> 2) &&& 1) +
        2 * (((b >>> 3) &&& 1) + 2 * (((b >>> 4) &&& 1) + 2 * (((b >>> 5) &&& 1) +
        2 * (((b >>> 6) &&& 1) + 2 * (((b >>> 7) &&& 1) + 2 * 0))))))), rest) := rfl
  rw [hred, bits_sum_eq b hb]

/-- The sampled-byte parser inverts the read-byte trace against the chip
model, for register bytes below 256. -/
lemma readByteR_append (b : Nat) (hb : b < 256) (rest : List Ev) :
    readByteR (read_byte_trace (chipBits b) ++ rest) = some (b, rest) := by
  have hred : readByteR (read_byte_trace (chipBits b) ++ rest) =
      some (((b >>> 0) &&& 1) + 2 * (((b >>> 1) &&& 1) + 2 * (((b >>> 2) &&& 1) +
        2 * (((b >>> 3) &&& 1) + 2 * (((b >>> 4) &&& 1) + 2 * (((b >>> 5) &&& 1) +
        2 * (((b >>> 6) &&& 1) + 2 * (((b >>> 7) &&& 1) + 2 * 0))))))), rest) := rfl
  rw [hred, bits_sum_eq b hb]

/-- The write-transaction parser inverts `write_data_to_register`. -/
lemma readTx_append (reg dat : Nat) (hr : reg < 256) (hd : dat < 256) (rest : List Ev) :
    readTx (write_data_to_register reg dat ++ rest) = some ((reg, dat), rest) := by
  have hcons : write_data_to_register reg dat ++ rest =
      Ev.csVal 1 :: (write_byte reg ++ (write_byte dat ++ (Ev.csVal 0 :: rest))) := by
    simp [write_data_to_register]
  rw [hcons]
  simp [readTx, readByteW_append reg hr, readByteW_append dat hd]

/-- The read-transaction parser inverts the trace of `read_from_regiter`. -/
lemma readRdTx_append (reg dat : Nat) (hr : reg < 256) (hd : dat < 256) (rest : List Ev) :
    readRdTx ((read_from_regiter reg (chipBits dat)).2 ++ rest) = some ((reg, dat), rest) := by
  have hcons : (read_from_regiter reg (chipBits dat)).2 ++ rest =
      Ev.csVal 1 :: (write_byte reg ++ (read_byte_trace (chipBits dat) ++ (Ev.csVal 0 :: rest))) := by
    simp [read_from_regiter]
  rw [hcons]
  simp [readRdTx, readByteW_append reg hr, readByteR_append dat hd]

/-- Peeling one write transaction off the front of a trace. -/
lemma parseTxs_step (n reg dat : Nat) (hr : reg < 256) (hd : dat < 256) (rest : List Ev) :
    parseTxs (n + 1) (write_data_to_register reg dat ++ rest) =
      match parseTxs n rest with
      | some txs => some ((reg, dat) :: txs)
      | none => none := by
  have htx := readTx_append reg dat hr hd rest
  have hcons : write_data_to_register reg dat ++ rest =
      Ev.csVal 1 :: ((write_byte reg ++ (write_byte dat ++ [Ev.csVal 0])) ++ rest) := by
    simp [write_data_to_register]
  rw [hcons] at htx ⊢
  simp only [parseTxs, htx]

/-- Peeling one read transaction off the front of a trace. -/
lemma parseRdTxs_step (n reg dat : Nat) (hr : reg < 256) (hd : dat < 256) (rest : List Ev) :
    parseRdTxs (n + 1) ((read_from_regiter reg (chipBits dat)).2 ++ rest) =
      match parseRdTxs n rest with
      | some txs => some ((reg, dat) :: txs)
      | none => none := by
  have htx := readRdTx_append reg dat hr hd rest
  have hcons : (read_from_regiter reg (chipBits dat)).2 ++ rest =
      Ev.csVal 1 :: ((write_byte reg ++ (read_byte_trace (chipBits dat) ++ [Ev.csVal 0])) ++ rest) := by
    simp [read_from_regiter]
  rw [hcons] at htx ⊢
  simp only [parseRdTxs, htx]

/-- The byte assembled by `_read_byte` from the chip model of a register
byte below 256 is that byte. -/
lemma read_byte_data_chipBits_aux : ∀ b : Fin 256,
    read_byte_data (chipBits b.val) = b.val := by
  decide

lemma read_byte_data_chipBits (b : Nat) (hb : b < 256) :
    read_byte_data (chipBits b) = b :=
  read_byte_data_chipBits_aux ⟨b, hb⟩

/-- The string returned by a register read, under the chip model. -/
lemma read_from_regiter_fst (reg b : Nat) (hb : b < 256) :
    (read_from_regiter reg (chipBits b)).1 = bcd_to_string b := by
  simp [read_from_regiter, read_byte_data_chipBits b hb]

/-! ### Claim theorems -/

lemma bcd_roundtrip_aux : ∀ m : Fin 100,
    (int_to_bcd (Int.ofNat m.val)).map bcd_to_string =
      Except.ok (toString (Int.ofNat m.val)) := by
  decide

/-- Claim C2: for every integer v in [0, 99], decoding the BCD encoding
round-trips through the decimal string:
`_bcd_to_string(_int_to_bcd(v))` equals the base-10 string of v. -/
theorem C2_bcd_roundtrip (v : Int) (h0 : 0 ≤ v) (h99 : v ≤ 99) :
    (int_to_bcd v).map bcd_to_string = Except.ok (toString v) := by
  obtain ⟨n, rfl⟩ := Int.eq_ofNat_of_zero_le h0
  have hn : n < 100 := by exact_mod_cast Int.lt_add_one_iff.mpr h99
  simpa using bcd_roundtrip_aux ⟨n, hn⟩

/-- Witness for C2 at v = 59. -/
theorem C2_bcd_roundtrip_witness :
    (int_to_bcd 59).map bcd_to_string = Except.ok (toString (59 : Int)) :=
  C2_bcd_roundtrip 59 (by norm_num) (by norm_num)

/-- Claim C4: for every byte b, the bit-level write configures the data pin
as output and then sets it to the 8 bits of b least significant first, with
exactly one clock pulse (high then low) after each bit; in particular
writing 0b10000000 drives the data-pin value sequence [0,0,0,0,0,0,0,1]. -/
theorem C4_write_byte_lsb_first :
    (∀ b : Nat, write_byte b =
      Ev.dioDir true :: (List.range 8).flatMap
        (fun i => [Ev.dioWrite (b / 2 ^ i % 2), Ev.clkVal 1, Ev.clkVal 0])) ∧
    dataWrites (write_byte 0b10000000) = [0, 0, 0, 0, 0, 0, 0, 1] := by
  constructor
  · intro b
    have hfun : (fun i => Ev.dioWrite ((b >>> i) &&& 1) ::
        sample_data_on_the_raising_edge_of_the_clock) =
        (fun i => [Ev.dioWrite (b / 2 ^ i % 2), Ev.clkVal 1, Ev.clkVal 0]) := by
      funext i
      simp [sample_data_on_the_raising_edge_of_the_clock,
        Nat.shiftRight_eq_div_pow, Nat.and_one_is_mod]
    rw [write_byte, hfun]
  · decide

/-- Claim C6: `_int_to_bcd` fails with the invalid-argument `ValueError` for
every integer outside [0, 99], returns `(v / 10) <<< 4 ||| (v % 10)` inside
[0, 99], and in particular maps 0 to 0x00, 59 to 0x59 and 99 to 0x99. -/
theorem C6_int_to_bcd_spec (v : Int) :
    ((v < 0 ∨ 99 < v) →
      int_to_bcd v = Except.error "Input must be in the range [0, 99]") ∧
    (0 ≤ v → v ≤ 99 →
      int_to_bcd v = Except.ok ((v.toNat / 10) <<< 4 ||| (v.toNat % 10))) ∧
    int_to_bcd 0 = Except.ok 0x00 ∧ int_to_bcd 59 = Except.ok 0x59 ∧
    int_to_bcd 99 = Except.ok 0x99 := by
  refine ⟨fun h => ?_, fun h0 h99 => ?_, by decide, by decide, by decide⟩
  · unfold int_to_bcd
    rw [if_pos h]
  · unfold int_to_bcd
    rw [if_neg (by omega)]

/-- Witness for C6 at v = 150 (rejected) and v = 59 (encoded). -/
theorem C6_int_to_bcd_spec_witness :
    int_to_bcd 150 = Except.error "Input must be in the range [0, 99]" ∧
    int_to_bcd 59 = Except.ok ((Int.toNat 59 / 10) <<< 4 ||| (Int.toNat 59 % 10)) :=
  ⟨(C6_int_to_bcd_spec 150).1 (by norm_num),
   (C6_int_to_bcd_spec 59).2.1 (by norm_num) (by norm_num)⟩

/-- Claim C7: `readYear` returns the fixed century prefix "20" concatenated
with the BCD-decoded decimal string of the year-register byte; in
particular a chip byte of 0x24 yields "2024". -/
theorem C7_readYear_century (regs : Nat → Nat) (hb : regs RTC_YEAR_READ < 256) :
    (readYear regs).1 = yearPrefixStr ++ bcd_to_string (regs RTC_YEAR_READ) ∧
    (regs RTC_YEAR_READ = 0x24 → (readYear regs).1 = "2024") := by
  have h1 : (readYear regs).1 = yearPrefixStr ++ bcd_to_string (regs RTC_YEAR_READ) := by
    simp [readYear, read_from_regiter_fst _ _ hb]
  refine ⟨h1, fun h24 => ?_⟩
  rw [h1, h24]
  rfl

/-- Witness for C7 with a chip that answers 0x24 on every register. -/
theorem C7_readYear_century_witness :
    (readYear (fun _ => 0x24)).1 = "2024" :=
  (C7_readYear_century (fun _ => 0x24) (by norm_num)).2 rfl

lemma bcd_to_string_arith_aux : ∀ b : Fin 256,
    bcd_to_string b.val = Nat.repr (b.val / 16 % 16 * 10 + b.val % 16) := by
  decide

/-- Claim C9: for every 8-bit byte b, including malformed bytes whose
nibbles exceed 9, `_bcd_to_string(b)` returns (without any error — it is a
total function in this embedding, as in the source, which performs no
validation) the base-10 string of `((b >> 4) & 0xF) * 10 + (b & 0xF)`; in
particular a register read receiving chip byte 0x47 yields "47". -/
theorem C9_bcd_to_string_total (b : Nat) (hb : b < 256) :
    bcd_to_string b = Nat.repr (b / 16 % 16 * 10 + b % 16) ∧
    (read_from_regiter RTC_SEC_READ (chipBits 0x47)).1 = "47" :=
  ⟨bcd_to_string_arith_aux ⟨b, hb⟩, by rfl⟩

/-- Witness for C9 at the malformed-nibble byte 0x4F and at 0x47. -/
theorem C9_bcd_to_string_total_witness :
    bcd_to_string 0x4F = Nat.repr (0x4F / 16 % 16 * 10 + 0x4F % 16) ∧
    (read_from_regiter RTC_SEC_READ (chipBits 0x47)).1 = "47" :=
  C9_bcd_to_string_total 0x4F (by norm_num)

lemma repr_short_aux : ∀ m : Fin 100, List.drop 2 (Nat.repr m.val).data = [] := by
  decide

/-- Claim C10: for every integer year with 0 < year < 100 (decimal string
shorter than three characters), `writeYear(year)` raises a `ValueError`
(the two-character slice of the year string is empty, so `int('')` fails)
before any register transaction is issued: the error result carries no
trace, since `_prepare_year_for_save` runs before `_unlock_then_write`. -/
theorem C10_writeYear_small_year_raises (y : Int) (h1 : 0 < y) (h2 : y < 100) :
    prepare_year_for_save y = Except.error "invalid literal for int() with base 10" ∧
    writeYear y = Except.error "invalid literal for int() with base 10" := by
  obtain ⟨n, rfl⟩ := Int.eq_ofNat_of_zero_le (le_of_lt h1)
  have hn : n < 100 := by exact_mod_cast h2
  have hdrop : List.drop 2 (Nat.repr n).data = [] := repr_short_aux ⟨n, hn⟩
  have hstr : toString (n : Int) = Nat.repr n := rfl
  have hprep : prepare_year_for_save (n : Int) =
      Except.error "invalid literal for int() with base 10" := by
    rw [prepare_year_for_save]
    rw [hstr, hdrop]
    rfl
  refine ⟨hprep, ?_⟩
  rw [writeYear, hprep]
  rfl

/-- Witness for C10 at year = 5. -/
theorem C10_writeYear_small_year_raises_witness :
    prepare_year_for_save 5 = Except.error "invalid literal for int() with base 10" ∧
    writeYear 5 = Except.error "invalid literal for int() with base 10" :=
  C10_writeYear_small_year_raises 5 (by norm_num) (by norm_num)

lemma parseTxs_txsTrace : ∀ (ps : List (Nat × Nat)) (n : Nat),
    (∀ p ∈ ps, p.1 < 256 ∧ p.2 < 256) →
    parseTxs (ps.length + n) (txsTrace ps) = some ps := by
  intro ps
  induction ps with
  | nil =>
    intro n h
    cases n <;> rfl
  | cons p ps ih =>
    intro n h
    have hp := h p (List.mem_cons_self p ps)
    have hstep := parseTxs_step (ps.length + n) p.1 p.2 hp.1 hp.2 (txsTrace ps)
    have hlen : (p :: ps).length + n = (ps.length + n) + 1 := by
      simp only [List.length_cons]
      omega
    rw [txsTrace, hlen, hstep, ih n (fun q hq => h q (List.mem_cons_of_mem p hq))]

lemma parseRdTxs_rdTxsTrace : ∀ (ps : List (Nat × Nat)) (n : Nat),
    (∀ p ∈ ps, p.1 < 256 ∧ p.2 < 256) →
    parseRdTxs (ps.length + n) (rdTxsTrace ps) = some ps := by
  intro ps
  induction ps with
  | nil =>
    intro n h
    cases n <;> rfl
  | cons p ps ih =>
    intro n h
    have hp := h p (List.mem_cons_self p ps)
    have hstep := parseRdTxs_step (ps.length + n) p.1 p.2 hp.1 hp.2 (rdTxsTrace ps)
    have hlen : (p :: ps).length + n = (ps.length + n) + 1 := by
      simp only [List.length_cons]
      omega
    rw [rdTxsTrace, hlen, hstep, ih n (fun q hq => h q (List.mem_cons_of_mem p hq))]

lemma bcd_bound_aux : ∀ m : Fin 100, ((m.val / 10) <<< 4 ||| (m.val % 10)) < 256 := by
  decide

/-- Claim C3: every per-field write issues exactly three register
transactions in order — (write-protect, 0), (field write address, BCD
value), (write-protect, 0x80) — each bracketed by a chip-select assert and
deassert, with no overlap between transactions (the parser `parseAll`
accepts only complete, non-overlapping chip-select-bracketed transactions
laid back to back). -/
theorem C3_field_write_three_transactions (register : Nat) (v : Int)
    (hreg : register < 256) (h0 : 0 ≤ v) (h99 : v ≤ 99) :
    ∃ tr bcd, unlock_then_write register v = Except.ok tr ∧
      int_to_bcd v = Except.ok bcd ∧
      parseAll tr = some [(RTC_REG_WRITE_PROTECTION, 0), (register, bcd),
        (RTC_REG_WRITE_PROTECTION, 0x80)] := by
  obtain ⟨n, rfl⟩ := Int.eq_ofNat_of_zero_le h0
  have hn : n < 100 := by exact_mod_cast Int.lt_add_one_iff.mpr h99
  have hb : ((n / 10) <<< 4 ||| (n % 10)) < 256 := bcd_bound_aux ⟨n, hn⟩
  have hok : int_to_bcd (n : Int) = Except.ok ((n / 10) <<< 4 ||| (n % 10)) := by
    unfold int_to_bcd
    rw [if_neg (by omega)]
    rfl
  refine ⟨write_data_to_register RTC_REG_WRITE_PROTECTION 0 ++
    (write_data_to_register register ((n / 10) <<< 4 ||| (n % 10)) ++
     write_data_to_register RTC_REG_WRITE_PROTECTION 0x80),
    (n / 10) <<< 4 ||| (n % 10), ?_, hok, ?_⟩
  · unfold unlock_then_write
    rw [hok]
    rfl
  · have hmem : ∀ p ∈ [(RTC_REG_WRITE_PROTECTION, 0),
        (register, (n / 10) <<< 4 ||| (n % 10)),
        (RTC_REG_WRITE_PROTECTION, (0x80 : Nat))], p.1 < 256 ∧ p.2 < 256 := by
      intro p hp
      simp only [List.mem_cons, List.not_mem_nil, or_false] at hp
      rcases hp with rfl | rfl | rfl
      · exact ⟨by norm_num [RTC_REG_WRITE_PROTECTION], by norm_num⟩
      · exact ⟨hreg, hb⟩
      · exact ⟨by norm_num [RTC_REG_WRITE_PROTECTION], by norm_num⟩
    have htr : write_data_to_register RTC_REG_WRITE_PROTECTION 0 ++
        (write_data_to_register register ((n / 10) <<< 4 ||| (n % 10)) ++
         write_data_to_register RTC_REG_WRITE_PROTECTION 0x80) =
        txsTrace [(RTC_REG_WRITE_PROTECTION, 0),
          (register, (n / 10) <<< 4 ||| (n % 10)),
          (RTC_REG_WRITE_PROTECTION, 0x80)] := by
      simp [txsTrace]
    unfold parseAll
    rw [htr]
    exact parseTxs_txsTrace [(RTC_REG_WRITE_PROTECTION, 0),
      (register, (n / 10) <<< 4 ||| (n % 10)),
      (RTC_REG_WRITE_PROTECTION, 0x80)] 153 hmem

/-- Witness for C3: `writeSeconds(30)` — the three transactions are
(0x8E, 0), (0x80, 0x30), (0x8E, 0x80). -/
theorem C3_field_write_three_transactions_witness :
    ∃ tr, writeSeconds 30 = Except.ok tr ∧
      parseAll tr = some [(RTC_REG_WRITE_PROTECTION, 0), (RTC_SEC_WRITE, 0x30),
        (RTC_REG_WRITE_PROTECTION, 0x80)] := by
  obtain ⟨tr, bcd, h1, h2, h3⟩ :=
    C3_field_write_three_transactions RTC_SEC_WRITE 30
      (by norm_num [RTC_SEC_WRITE]) (by norm_num) (by norm_num)
  have hbcd : bcd = 0x30 := by
    have : int_to_bcd 30 = Except.ok 0x30 := by decide
    rw [this] at h2
    exact (Except.ok.injEq _ _ ▸ congrArg id h2) ▸ rfl
  subst hbcd
  exact ⟨tr, h1, h3⟩

/-- Claim C8: `getDate` performs the seven register reads in the order day,
month, year, hour, minute, second, weekday — seven independent
chip-select-bracketed transactions, certified by the read-transaction
parser — and returns the formatted report string, where each field is the
decimal string of the BCD-decoded register byte and the year carries the
"20" prefix. -/
theorem C8_getDate_order_and_format (regs : Nat → Nat) (h : ∀ a, regs a < 256) :
    (getDate regs).1 =
      "Date: " ++ bcd_to_string (regs RTC_DAY_OF_THE_MONTH_READ) ++ "." ++
        bcd_to_string (regs RTC_MONTH_READ) ++ "." ++
        ("20" ++ bcd_to_string (regs RTC_YEAR_READ)) ++ ", " ++
        bcd_to_string (regs RTC_HOUR_READ) ++ ":" ++
        bcd_to_string (regs RTC_MIN_READ) ++ ":" ++
        bcd_to_string (regs RTC_SEC_READ) ++ ", Day: " ++
        bcd_to_string (regs RTC_DAY_OF_THE_WEEK_READ) ∧
    parseAllRd (getDate regs).2 =
      some [(RTC_DAY_OF_THE_MONTH_READ, regs RTC_DAY_OF_THE_MONTH_READ),
            (RTC_MONTH_READ, regs RTC_MONTH_READ),
            (RTC_YEAR_READ, regs RTC_YEAR_READ),
            (RTC_HOUR_READ, regs RTC_HOUR_READ),
            (RTC_MIN_READ, regs RTC_MIN_READ),
            (RTC_SEC_READ, regs RTC_SEC_READ),
            (RTC_DAY_OF_THE_WEEK_READ, regs RTC_DAY_OF_THE_WEEK_READ)] := by
  constructor
  · simp [getDate, readDayOfTheMonth, readMonth, readYear, readHours,
      readMinutes, readSeconds, readDayOfTheWeek, yearPrefixStr,
      read_from_regiter_fst _ _ (h RTC_DAY_OF_THE_MONTH_READ),
      read_from_regiter_fst _ _ (h RTC_MONTH_READ),
      read_from_regiter_fst _ _ (h RTC_YEAR_READ),
      read_from_regiter_fst _ _ (h RTC_HOUR_READ),
      read_from_regiter_fst _ _ (h RTC_MIN_READ),
      read_from_regiter_fst _ _ (h RTC_SEC_READ),
      read_from_regiter_fst _ _ (h RTC_DAY_OF_THE_WEEK_READ)]
  · have htr : (getDate regs).2 =
        rdTxsTrace [(RTC_DAY_OF_THE_MONTH_READ, regs RTC_DAY_OF_THE_MONTH_READ),
          (RTC_MONTH_READ, regs RTC_MONTH_READ),
          (RTC_YEAR_READ, regs RTC_YEAR_READ),
          (RTC_HOUR_READ, regs RTC_HOUR_READ),
          (RTC_MIN_READ, regs RTC_MIN_READ),
          (RTC_SEC_READ, regs RTC_SEC_READ),
          (RTC_DAY_OF_THE_WEEK_READ, regs RTC_DAY_OF_THE_WEEK_READ)] := by
      simp [getDate, readDayOfTheMonth, readMonth, readYear, readHours,
        readMinutes, readSeconds, readDayOfTheWeek, rdTxsTrace]
    have hmem : ∀ p ∈ [(RTC_DAY_OF_THE_MONTH_READ, regs RTC_DAY_OF_THE_MONTH_READ),
        (RTC_MONTH_READ, regs RTC_MONTH_READ),
        (RTC_YEAR_READ, regs RTC_YEAR_READ),
        (RTC_HOUR_READ, regs RTC_HOUR_READ),
        (RTC_MIN_READ, regs RTC_MIN_READ),
        (RTC_SEC_READ, regs RTC_SEC_READ),
        (RTC_DAY_OF_THE_WEEK_READ, regs RTC_DAY_OF_THE_WEEK_READ)],
        p.1 < 256 ∧ p.2 < 256 := by
      intro p hp
      simp only [List.mem_cons, List.not_mem_nil, or_false] at hp
      rcases hp with rfl | rfl | rfl | rfl | rfl | rfl | rfl <;>
        exact ⟨by norm_num [RTC_DAY_OF_THE_MONTH_READ, RTC_MONTH_READ,
          RTC_YEAR_READ, RTC_HOUR_READ, RTC_MIN_READ, RTC_SEC_READ,
          RTC_DAY_OF_THE_WEEK_READ], h _⟩
    unfold parseAllRd
    rw [htr]
    exact parseRdTxs_rdTxsTrace
      [(RTC_DAY_OF_THE_MONTH_READ, regs RTC_DAY_OF_THE_MONTH_READ),
       (RTC_MONTH_READ, regs RTC_MONTH_READ),
       (RTC_YEAR_READ, regs RTC_YEAR_READ),
       (RTC_HOUR_READ, regs RTC_HOUR_READ),
       (RTC_MIN_READ, regs RTC_MIN_READ),
       (RTC_SEC_READ, regs RTC_SEC_READ),
       (RTC_DAY_OF_THE_WEEK_READ, regs RTC_DAY_OF_THE_WEEK_READ)] 357 hmem

/-- Witness for C8 with a chip whose every register reads 0x24. -/
theorem C8_getDate_order_and_format_witness :
    (getDate (fun _ => 0x24)).1 = "Date: 24.24.2024, 24:24:24, Day: 24" ∧
    parseAllRd (getDate (fun _ => 0x24)).2 =
      some [(RTC_DAY_OF_THE_MONTH_READ, 0x24), (RTC_MONTH_READ, 0x24),
            (RTC_YEAR_READ, 0x24), (RTC_HOUR_READ, 0x24), (RTC_MIN_READ, 0x24),
            (RTC_SEC_READ, 0x24), (RTC_DAY_OF_THE_WEEK_READ, 0x24)] := by
  have h := C8_getDate_order_and_format (fun _ => 0x24) (fun _ => by norm_num)
  exact ⟨h.1.trans (by rfl), h.2.trans (by rfl)⟩

/-- Claim C1 evaluated on the code: calling
`setDate(dayOfTheMonth=3, month=2, year=2024, hour=25, minute=47,
second=30, dayOfWeek=6)` issues the write transactions for day, month, year
and weekday only.  No hour transaction is issued (the first half of the
claim), but the valid minute=47 and second=30 are not written either
(refuting the second half): the guards
`hour & hour > -1 & hour < 23` etc. parse as the chained comparison
`hour > hour and hour < 23`, which is always false, so the hour, minute and
second writes can never execute. -/
theorem C1_setDate_hour25_actual_trace :
    (setDate 3 2 2024 25 47 30 6).map parseAll =
      Except.ok (some
        [(RTC_REG_WRITE_PROTECTION, 0), (RTC_DAY_OF_THE_MONTH_WRITE, 0x03),
         (RTC_REG_WRITE_PROTECTION, 0x80),
         (RTC_REG_WRITE_PROTECTION, 0), (RTC_MONTH_WRITE, 0x02),
         (RTC_REG_WRITE_PROTECTION, 0x80),
         (RTC_REG_WRITE_PROTECTION, 0), (RTC_YEAR_WRITE, 0x24),
         (RTC_REG_WRITE_PROTECTION, 0x80),
         (RTC_REG_WRITE_PROTECTION, 0), (RTC_DAY_OF_THE_WEEK_WRITE, 0x06),
         (RTC_REG_WRITE_PROTECTION, 0x80)]) := by
  decide

/-- Claim C5 evaluated on the code: `setDate(150, 2, 2024, 15, 47, 30, 6)`
does not silently skip the out-of-range day — the actual day guard
`(150 & 150) > (0 & 150) and (0 & 150) < 32` degenerates to `150 > 0`, so
the day write is attempted and `_int_to_bcd(150)` raises `ValueError`,
which propagates out of `setDate`. -/
theorem C5_setDate_day150_raises :
    setDate 150 2 2024 15 47 30 6 =
      Except.error "Input must be in the range [0, 99]" := by
  decide

end RpiPico
